import Mathlib

/-!
Verification of the SRL evaluation utilities
(`nlp/pipeline/models/srl/eval_utils.py`) and the RNN sequence
packing helpers (`examples/NER/model_factory.py`) of the `forte`
repository, as a shallow embedding in Lean.

Python floats are modelled as rationals (`ℚ`); machine integers as `ℕ`.
Python lists become Lean lists, and a Python `dict` from predicate
positions to span lists becomes an association list whose keys are
assumed distinct (the `dict` invariant) where a theorem needs it.
-/

namespace Forte

/-- A labeled SRL argument span `(start, end, label)` (the `Span` named
tuple of `nlp/pipeline/models/srl/data.py`; `eval_utils.py` accesses its
fields positionally as `a[0]`, `a[1]`, `a[2]`).  `end` is a Lean keyword,
so the second field is called `fin`. -/
structure Span where
  start : ℕ
  fin : ℕ
  label : String
deriving DecidableEq, Repr

/-- Function `_print_f1(total_gold, total_predicted, total_matched)` from
`eval_utils.py` (the printing side effect is dropped; the returned triple
`(precision, recall, f1)` is kept). -/
def print_f1 (total_gold total_predicted total_matched : ℕ) : ℚ × ℚ × ℚ :=
  let precision : ℚ :=
    if total_predicted > 0 then 100 * total_matched / total_predicted else 0
  let recall_ : ℚ :=
    if total_gold > 0 then 100 * total_matched / total_gold else 0
  let f1 : ℚ :=
    if precision + recall_ > 0
    then 2 * precision * recall_ / (precision + recall_) else 0
  (precision, recall_, f1)

/-- The unlabeled match test of the inner loops of `compute_span_f1` and
`compute_srl_f1`: `a0[0] == a1[0] and a0[1] == a1[1]`. -/
def unlabeledMatch (a0 a1 : Span) : Bool :=
  a0.start == a1.start && a0.fin == a1.fin

/-- The labeled match test: an unlabeled match whose labels also agree
(`a0[2] == a1[2]` inside the unlabeled branch). -/
def labeledMatch (a0 a1 : Span) : Bool :=
  unlabeledMatch a0 a1 && a0.label == a1.label

/-- The all-pairs double loop `for a0 in gold: for a1 in pred: if m a0 a1`
counting matching `(gold, predicted)` pairs. -/
def pairCount (m : Span → Span → Bool) (gold pred : List Span) : ℕ :=
  (gold.map (fun a0 => pred.countP (m a0))).sum

/-- The four accumulators of `compute_span_f1` / `compute_srl_f1`. -/
structure SpanCounts where
  total_gold : ℕ
  total_predicted : ℕ
  total_matched : ℕ
  total_unlabeled_matched : ℕ
deriving Repr

/-- The counting loop of `compute_span_f1` (lines 61-78): per-sentence
gold/predicted totals and all-pairs matched totals.  The Python loop runs
over `range(len(gold_data))` after asserting the two lists have equal
length; `zip` realises the same pairing. -/
def span_f1_counts (gold_data predictions : List (List Span)) : SpanCounts where
  total_gold := (gold_data.map List.length).sum
  total_predicted := (predictions.map List.length).sum
  total_matched :=
    ((gold_data.zip predictions).map (fun gp => pairCount labeledMatch gp.1 gp.2)).sum
  total_unlabeled_matched :=
    ((gold_data.zip predictions).map (fun gp => pairCount unlabeledMatch gp.1 gp.2)).sum

/-- Function `compute_span_f1(gold_data, predictions, task_name)`: the labeled and
unlabeled `(precision, recall, f1)` triples (the label-confusion counter,
unused by any property here, is dropped). -/
def compute_span_f1 (gold_data predictions : List (List Span)) :
    (ℚ × ℚ × ℚ) × (ℚ × ℚ × ℚ) :=
  let c := span_f1_counts gold_data predictions
  (print_f1 c.total_gold c.total_predicted c.total_matched,
   print_f1 c.total_gold c.total_predicted c.total_unlabeled_matched)

/-- A Python `dict` mapping predicate positions to argument span lists,
as an association list (`dict` keys are distinct; theorems that depend on
it take key-distinctness as a hypothesis). -/
abbrev SrlDict := List (ℕ × List Span)

/-- Lookup `prediction[pred_id]` guarded by `pred_id in prediction`. -/
def dictLookup (d : SrlDict) (k : ℕ) : Option (List Span) :=
  (d.find? (fun kv => kv.1 == k)).map Prod.snd

/-- Filter `[a for a in gold_args if a[2] not in ["V", "C-V"]]`
(`compute_srl_f1`, line 132). -/
def filtered_gold_args (args : List Span) : List Span :=
  args.filter (fun a => !(a.label == "V" || a.label == "C-V"))

/-- Filter `[a for a in args if a[2] not in ["V"]]` (`compute_srl_f1`,
line 147): predicted spans keep the `"C-V"` label. -/
def filtered_pred_args (args : List Span) : List Span :=
  args.filter (fun a => !(a.label == "V"))

/-- Per-sentence gold total of `compute_srl_f1`: the sum over predicates
of the filtered gold argument count. -/
def srl_sent_gold (gold : SrlDict) : ℕ :=
  (gold.map (fun kv => (filtered_gold_args kv.2).length)).sum

/-- Per-sentence predicted total of `compute_srl_f1`. -/
def srl_sent_pred (pred : SrlDict) : ℕ :=
  (pred.map (fun kv => (filtered_pred_args kv.2).length)).sum

/-- Per-sentence matched total of `compute_srl_f1` for a match test `m`:
for each gold predicate present in the predictions, the all-pairs count
between its filtered gold arguments and its (unfiltered) predicted
arguments. -/
def srl_sent_matched (m : Span → Span → Bool) (gold pred : SrlDict) : ℕ :=
  (gold.map (fun kv =>
    match dictLookup pred kv.1 with
    | none => 0
    | some pargs => pairCount m (filtered_gold_args kv.2) pargs)).sum

/-- The sentence-level complete-match test of `compute_srl_f1`
(line 151): `gold_rels == matched and pred_rels == matched`. -/
def srl_sent_complete (gold pred : SrlDict) : Bool :=
  srl_sent_gold gold == srl_sent_matched labeledMatch gold pred &&
  srl_sent_pred pred == srl_sent_matched labeledMatch gold pred

/-- The four accumulators of the unofficial loop of `compute_srl_f1`
(lines 118-152). -/
def srl_f1_counts (gold_srl predictions : List SrlDict) : SpanCounts where
  total_gold := (gold_srl.map srl_sent_gold).sum
  total_predicted := (predictions.map srl_sent_pred).sum
  total_matched :=
    ((gold_srl.zip predictions).map
      (fun gp => srl_sent_matched labeledMatch gp.1 gp.2)).sum
  total_unlabeled_matched :=
    ((gold_srl.zip predictions).map
      (fun gp => srl_sent_matched unlabeledMatch gp.1 gp.2)).sum

/-- Counter `comp_sents` of `compute_srl_f1`: the number of complete-match
sentences. -/
def srl_comp_sents (gold_srl predictions : List SrlDict) : ℕ :=
  ((gold_srl.zip predictions).filter (fun gp => srl_sent_complete gp.1 gp.2)).length

/-- The unofficial scores of `compute_srl_f1`: the labeled and unlabeled
`(precision, recall, f1)` triples computed by `_print_f1` from the loop
totals. -/
def compute_srl_f1_unofficial (gold_srl predictions : List SrlDict) :
    (ℚ × ℚ × ℚ) × (ℚ × ℚ × ℚ) :=
  let c := srl_f1_counts gold_srl predictions
  (print_f1 c.total_gold c.total_predicted c.total_matched,
   print_f1 c.total_gold c.total_predicted c.total_unlabeled_matched)

/-- C1: `_print_f1` returns precision `100*matched/predicted` when
`predicted > 0` and `0` otherwise, recall `100*matched/gold` when
`gold > 0` and `0` otherwise, and F1 `2*p*r/(p+r)` when `p+r > 0` and `0`
otherwise; in particular for `gold = predicted = 0` all three are `0`. -/
theorem print_f1_formula (g p m : ℕ) :
    (print_f1 g p m).1 = (if p > 0 then 100 * (m : ℚ) / p else 0) ∧
    (print_f1 g p m).2.1 = (if g > 0 then 100 * (m : ℚ) / g else 0) ∧
    (print_f1 g p m).2.2 =
      (if (print_f1 g p m).1 + (print_f1 g p m).2.1 > 0
       then 2 * (print_f1 g p m).1 * (print_f1 g p m).2.1 /
            ((print_f1 g p m).1 + (print_f1 g p m).2.1)
       else 0) ∧
    print_f1 0 0 m = (0, 0, 0) := by
  refine ⟨?_, ?_, ?_, ?_⟩
  · rfl
  · rfl
  · rfl
  · simp [print_f1]

lemma labeledMatch_imp_unlabeled {a0 a1 : Span} (h : labeledMatch a0 a1 = true) :
    unlabeledMatch a0 a1 = true := by
  have h' := h
  rw [labeledMatch, Bool.and_eq_true] at h'
  exact h'.1

lemma pairCount_labeled_le_unlabeled (gold pred : List Span) :
    pairCount labeledMatch gold pred ≤ pairCount unlabeledMatch gold pred := by
  apply List.sum_le_sum
  intro a0 _
  exact List.countP_mono_left (fun a1 _ h => labeledMatch_imp_unlabeled h)

lemma srl_sent_matched_labeled_le_unlabeled (gold pred : SrlDict) :
    srl_sent_matched labeledMatch gold pred ≤
    srl_sent_matched unlabeledMatch gold pred := by
  apply List.sum_le_sum
  intro kv _
  cases dictLookup pred kv.1 with
  | none => simp
  | some pargs => simpa using pairCount_labeled_le_unlabeled _ _

/-- C3: in both `compute_span_f1` and `compute_srl_f1`, the unlabeled
matched total is at least the labeled matched total. -/
theorem unlabeled_matched_ge_labeled (gold_data predictions : List (List Span))
    (gold_srl preds : List SrlDict) :
    (span_f1_counts gold_data predictions).total_matched ≤
      (span_f1_counts gold_data predictions).total_unlabeled_matched ∧
    (srl_f1_counts gold_srl preds).total_matched ≤
      (srl_f1_counts gold_srl preds).total_unlabeled_matched := by
  constructor
  · apply List.sum_le_sum
    intro gp _
    exact pairCount_labeled_le_unlabeled gp.1 gp.2
  · apply List.sum_le_sum
    intro gp _
    exact srl_sent_matched_labeled_le_unlabeled gp.1 gp.2

lemma labeledMatch_iff_eq {a0 a1 : Span} :
    labeledMatch a0 a1 = true ↔ a0 = a1 := by
  cases a0
  cases a1
  simp [labeledMatch, unlabeledMatch, Span.mk.injEq, and_assoc]

lemma countP_labeled_self {l : List Span} (h : l.Nodup)
    {a0 : Span} (ha : a0 ∈ l) : l.countP (labeledMatch a0) = 1 := by
  induction l with
  | nil => cases ha
  | cons b t ih =>
    rw [List.nodup_cons] at h
    rcases List.mem_cons.mp ha with heq | hmem
    · subst heq
      have ht : t.countP (labeledMatch a0) = 0 := by
        rw [List.countP_eq_zero]
        intro a1 h1 hm
        exact h.1 ((labeledMatch_iff_eq.mp hm) ▸ h1)
      rw [List.countP_cons, ht]
      simp [labeledMatch, unlabeledMatch]
    · have hb : labeledMatch a0 b = false := by
        rw [Bool.eq_false_iff]
        intro hm
        exact h.1 ((labeledMatch_iff_eq.mp hm) ▸ hmem)
      rw [List.countP_cons, hb, ih h.2 hmem]
      simp

lemma pairCount_eq_length {m : Span → Span → Bool} {F l : List Span}
    (h : ∀ a0 ∈ F, l.countP (m a0) = 1) : pairCount m F l = F.length := by
  rw [pairCount, List.map_congr_left h]
  simp

lemma zip_self_eq {α : Type} (l : List α) : l.zip l = l.map (fun a => (a, a)) := by
  induction l with
  | nil => rfl
  | cons a t ih => simp [ih]

lemma print_f1_perfect {N : ℕ} (h : 0 < N) : print_f1 N N N = (100, 100, 100) := by
  have hN : (N : ℚ) ≠ 0 := by
    exact_mod_cast Nat.pos_iff_ne_zero.mp h
  have h100 : 100 * (N : ℚ) / N = 100 := by
    rw [mul_div_assoc, div_self hN, mul_one]
  simp only [print_f1, if_pos h, h100]
  norm_num

lemma span_matched_self {gold_data : List (List Span)}
    (h1 : ∀ l ∈ gold_data, l.Nodup) :
    ((gold_data.zip gold_data).map
      (fun gp => pairCount labeledMatch gp.1 gp.2)).sum =
      (gold_data.map List.length).sum := by
  rw [zip_self_eq, List.map_map]
  congr 1
  apply List.map_congr_left
  intro l hl
  exact pairCount_eq_length (fun a0 ha => countP_labeled_self (h1 l hl) ha)

lemma dictLookup_self {d : SrlDict} (h : (d.map Prod.fst).Nodup)
    {kv : ℕ × List Span} (hkv : kv ∈ d) : dictLookup d kv.1 = some kv.2 := by
  induction d with
  | nil => cases hkv
  | cons hd tl ih =>
    rw [List.map_cons, List.nodup_cons] at h
    rcases List.mem_cons.mp hkv with heq | hmem
    · subst heq
      simp [dictLookup, List.find?]
    · have hne : (hd.1 == kv.1) = false := by
        have : kv.1 ∈ tl.map Prod.fst := List.mem_map_of_mem _ hmem
        simp only [beq_eq_false_iff_ne, ne_eq]
        intro hc
        exact h.1 (hc ▸ this)
      rw [dictLookup, List.find?, hne]
      exact ih h.2 hmem

lemma filtered_args_of_no_cv {args : List Span}
    (h : ∀ a ∈ args, a.label ≠ "C-V") :
    filtered_gold_args args = filtered_pred_args args := by
  rw [filtered_gold_args, filtered_pred_args]
  apply List.filter_congr
  intro a ha
  simp [h a ha]

lemma srl_sent_self {d : SrlDict}
    (hk : (d.map Prod.fst).Nodup)
    (hs : ∀ kv ∈ d, (kv.2).Nodup)
    (hl : ∀ kv ∈ d, ∀ a ∈ kv.2, a.label ≠ "C-V") :
    srl_sent_matched labeledMatch d d = srl_sent_gold d ∧
    srl_sent_pred d = srl_sent_gold d := by
  constructor
  · rw [srl_sent_matched, srl_sent_gold]
    congr 1
    apply List.map_congr_left
    intro kv hkv
    rw [dictLookup_self hk hkv]
    exact pairCount_eq_length (fun a0 ha =>
      countP_labeled_self (hs kv hkv) (List.mem_of_mem_filter ha))
  · rw [srl_sent_pred, srl_sent_gold]
    congr 1
    apply List.map_congr_left
    intro kv hkv
    rw [filtered_args_of_no_cv (hl kv hkv)]

/-- C2 (amended): when the predictions equal the gold spans, the labeled
precision, recall and F1 of `compute_span_f1` and of the unofficial
scores of `compute_srl_f1` are all `100` — provided at least one span is
counted, no sentence (for `compute_srl_f1`: no predicate) lists the same
`(start, end, label)` span twice, and the predicate dictionaries have
distinct keys and (for `compute_srl_f1`) no span labeled `"C-V"`, whose
filtering is asymmetric.  `"V"` spans, filtered from gold and predicted
counts alike, and distinct labels on a shared position are fine. -/
theorem perfect_match_f1_100
    (gold_data : List (List Span)) (gold_srl : List SrlDict)
    (h1 : ∀ l ∈ gold_data, l.Nodup)
    (h2 : 0 < (gold_data.map List.length).sum)
    (k1 : ∀ d ∈ gold_srl, (d.map Prod.fst).Nodup)
    (k2 : ∀ d ∈ gold_srl, ∀ kv ∈ d, (kv.2).Nodup)
    (k3 : ∀ d ∈ gold_srl, ∀ kv ∈ d, ∀ a ∈ kv.2, a.label ≠ "C-V")
    (k4 : 0 < (gold_srl.map srl_sent_gold).sum) :
    (compute_span_f1 gold_data gold_data).1 = (100, 100, 100) ∧
    (compute_srl_f1_unofficial gold_srl gold_srl).1 = (100, 100, 100) := by
  constructor
  · have hm := span_matched_self h1
    simp only [compute_span_f1, span_f1_counts, hm]
    exact print_f1_perfect h2
  · have hm : ((gold_srl.zip gold_srl).map
        (fun gp => srl_sent_matched labeledMatch gp.1 gp.2)).sum =
        (gold_srl.map srl_sent_gold).sum := by
      rw [zip_self_eq, List.map_map]
      congr 1
      apply List.map_congr_left
      intro d hd
      exact (srl_sent_self (k1 d hd) (fun kv hkv => k2 d hd kv hkv)
        (fun kv hkv => k3 d hd kv hkv)).1
    have hp : (gold_srl.map srl_sent_pred).sum =
        (gold_srl.map srl_sent_gold).sum := by
      congr 1
      apply List.map_congr_left
      intro d hd
      exact (srl_sent_self (k1 d hd) (fun kv hkv => k2 d hd kv hkv)
        (fun kv hkv => k3 d hd kv hkv)).2
    simp only [compute_srl_f1_unofficial, srl_f1_counts, hm, hp]
    exact print_f1_perfect k4

/-- C2 counterexample: the claim fails as stated.  With duplicated
spans the predictions equal the gold spans exactly, yet the labeled
precision of `compute_span_f1` is `200`, not `100`. -/
theorem perfect_match_f1_100_cex :
    (compute_span_f1 [[⟨0, 0, "A"⟩, ⟨0, 0, "A"⟩]] [[⟨0, 0, "A"⟩, ⟨0, 0, "A"⟩]]).1.1 ≠ 100 := by
  have hc : span_f1_counts [[⟨0, 0, "A"⟩, ⟨0, 0, "A"⟩]] [[⟨0, 0, "A"⟩, ⟨0, 0, "A"⟩]] =
      ⟨2, 2, 4, 4⟩ := by rfl
  simp only [compute_span_f1, hc, print_f1]
  norm_num

/-- C2 witness: a concrete perfect match — including a `"V"` span and
two spans sharing a position under different labels — on which the
amended claim applies and yields all-100 scores. -/
theorem perfect_match_f1_100_witness :
    (compute_span_f1 [[⟨0, 1, "A0"⟩, ⟨0, 1, "A1"⟩]]
        [[⟨0, 1, "A0"⟩, ⟨0, 1, "A1"⟩]]).1 = (100, 100, 100) ∧
    (compute_srl_f1_unofficial [[(0, [⟨0, 0, "V"⟩, ⟨1, 2, "A0"⟩])]]
        [[(0, [⟨0, 0, "V"⟩, ⟨1, 2, "A0"⟩])]]).1 = (100, 100, 100) :=
  perfect_match_f1_100 [[⟨0, 1, "A0"⟩, ⟨0, 1, "A1"⟩]]
    [[(0, [⟨0, 0, "V"⟩, ⟨1, 2, "A0"⟩])]]
    (by decide) (by decide) (by decide) (by decide) (by decide) (by decide)

/-- C8: the unofficial scoring of `compute_srl_f1` filters both `"V"`
and `"C-V"` out of the gold counts but only `"V"` out of the predicted
counts; hence a perfect prediction containing a `"C-V"` span has
`total_predicted > total_gold` and a labeled precision below 100 (here:
gold = predictions = one predicate with spans `(1,2,"A0")` and
`(3,3,"C-V")`, giving `total_gold = 1`, `total_predicted = 2`,
precision `50`). -/
theorem cv_filtering_asymmetry :
    (∀ s e : ℕ,
      filtered_gold_args [⟨s, e, "V"⟩] = [] ∧
      filtered_gold_args [⟨s, e, "C-V"⟩] = [] ∧
      filtered_pred_args [⟨s, e, "V"⟩] = [] ∧
      filtered_pred_args [⟨s, e, "C-V"⟩] = [⟨s, e, "C-V"⟩]) ∧
    (srl_f1_counts [[(0, [⟨1, 2, "A0"⟩, ⟨3, 3, "C-V"⟩])]]
        [[(0, [⟨1, 2, "A0"⟩, ⟨3, 3, "C-V"⟩])]]).total_gold = 1 ∧
    (srl_f1_counts [[(0, [⟨1, 2, "A0"⟩, ⟨3, 3, "C-V"⟩])]]
        [[(0, [⟨1, 2, "A0"⟩, ⟨3, 3, "C-V"⟩])]]).total_predicted = 2 ∧
    (compute_srl_f1_unofficial [[(0, [⟨1, 2, "A0"⟩, ⟨3, 3, "C-V"⟩])]]
        [[(0, [⟨1, 2, "A0"⟩, ⟨3, 3, "C-V"⟩])]]).1.1 = 50 := by
  refine ⟨fun s e => ⟨rfl, rfl, rfl, rfl⟩, rfl, rfl, ?_⟩
  have hc : srl_f1_counts [[(0, [⟨1, 2, "A0"⟩, ⟨3, 3, "C-V"⟩])]]
      [[(0, [⟨1, 2, "A0"⟩, ⟨3, 3, "C-V"⟩])]] = ⟨1, 2, 1, 1⟩ := rfl
  simp only [compute_srl_f1_unofficial, hc, print_f1]
  norm_num

lemma pairCount_replicate (k n : ℕ) (s : Span) :
    pairCount unlabeledMatch (List.replicate k s) (List.replicate n s) = k * n := by
  have hc : (List.replicate n s).countP (unlabeledMatch s) = n := by
    have h1 : ∀ a ∈ List.replicate n s, unlabeledMatch s a = true := by
      intro a ha
      rw [List.eq_of_mem_replicate ha]
      simp [unlabeledMatch]
    rw [List.countP_eq_length.mpr h1, List.length_replicate]
  rw [pairCount, List.map_replicate, hc, List.sum_replicate, smul_eq_mul]

/-- C9: span matching is an all-pairs count, not a one-to-one matching:
`k` copies of a span matched against `n` copies contribute `k * n`, and
on a concrete duplicated input the matched count (2) exceeds the number
of distinct gold spans (1) while `compute_span_f1` and the unofficial
`compute_srl_f1` precision reach 200. -/
theorem matching_counts_all_pairs :
    (∀ k n : ℕ, ∀ s : Span,
      pairCount unlabeledMatch (List.replicate k s) (List.replicate n s) = k * n) ∧
    (span_f1_counts [[⟨0, 0, "A"⟩, ⟨0, 0, "A"⟩]]
        [[⟨0, 0, "A"⟩]]).total_unlabeled_matched = 2 ∧
    (compute_span_f1 [[⟨0, 0, "A"⟩, ⟨0, 0, "A"⟩]] [[⟨0, 0, "A"⟩]]).1.1 = 200 ∧
    (srl_f1_counts [[(0, [⟨0, 0, "A"⟩, ⟨0, 0, "A"⟩])]]
        [[(0, [⟨0, 0, "A"⟩])]]).total_matched = 2 ∧
    (compute_srl_f1_unofficial [[(0, [⟨0, 0, "A"⟩, ⟨0, 0, "A"⟩])]]
        [[(0, [⟨0, 0, "A"⟩])]]).1.1 = 200 := by
  refine ⟨pairCount_replicate, rfl, ?_, rfl, ?_⟩
  · have hc : span_f1_counts [[⟨0, 0, "A"⟩, ⟨0, 0, "A"⟩]] [[⟨0, 0, "A"⟩]] =
        ⟨2, 1, 2, 2⟩ := rfl
    simp only [compute_span_f1, hc, print_f1]
    norm_num
  · have hc : srl_f1_counts [[(0, [⟨0, 0, "A"⟩, ⟨0, 0, "A"⟩])]]
        [[(0, [⟨0, 0, "A"⟩])]] = ⟨2, 1, 2, 2⟩ := rfl
    simp only [compute_srl_f1_unofficial, hc, print_f1]
    norm_num

/-! ### `prepare_rnn_seq` / `recover_rnn_seq` (`examples/NER/model_factory.py`)

Tensors are modelled along their batch dimension: a batch-first tensor
is a list of rows, and `lengths` a list of naturals.  `torch.sort` is
modelled as a stable sort of the `(index, value)` pairs, returning the
sorted values and the sorting indices. -/

/-- Descending comparison by value for `torch.sort(v, descending=True)`. -/
def descBy : ℕ × ℕ → ℕ × ℕ → Prop := fun a b => b.2 ≤ a.2

instance : DecidableRel descBy := fun a b => Nat.decLe b.2 a.2

instance : IsTotal (ℕ × ℕ) descBy := ⟨fun a b => Nat.le_total b.2 a.2⟩

instance : IsTrans (ℕ × ℕ) descBy := ⟨fun _ _ _ h1 h2 => Nat.le_trans h2 h1⟩

/-- Ascending comparison by value for `torch.sort(v)`. -/
def ascBy : ℕ × ℕ → ℕ × ℕ → Prop := fun a b => a.2 ≤ b.2

instance : DecidableRel ascBy := fun a b => Nat.decLe a.2 b.2

instance : IsTotal (ℕ × ℕ) ascBy := ⟨fun a b => Nat.le_total a.2 b.2⟩

instance : IsTrans (ℕ × ℕ) ascBy := ⟨fun _ _ _ h1 h2 => Nat.le_trans h1 h2⟩

/-- Model of `torch.sort(v, descending=True)`: sorted values and sorting indices. -/
def torchSortDesc (v : List ℕ) : List ℕ × List ℕ :=
  let s := List.insertionSort descBy v.enum
  (s.map Prod.snd, s.map Prod.fst)

/-- Model of `torch.sort(v)` (ascending): sorted values and sorting indices. -/
def torchSortAsc (v : List ℕ) : List ℕ × List ℕ :=
  let s := List.insertionSort ascBy v.enum
  (s.map Prod.snd, s.map Prod.fst)

/-- Function `check_decreasing` inside `prepare_rnn_seq`: sort the lengths
descending; if no element moved (`torch.ne(lens, lengths).sum() == 0`)
return `None`, otherwise the sorted lengths, the sort permutation
`order`, and `rev_order`, the ascending argsort of `order`. -/
def check_decreasing (lengths : List ℕ) : Option (List ℕ × List ℕ × List ℕ) :=
  let lens := (torchSortDesc lengths).1
  let order := (torchSortDesc lengths).2
  if lens = lengths then none
  else some (lens, order, (torchSortAsc order).2)

/-- Model of `tensor.index_select(batch_dim, idx)` over a batch modelled as a
list of rows (`d` is an out-of-range default; torch would raise). -/
def index_select {α : Type} (xs : List α) (d : α) (idx : List ℕ) : List α :=
  idx.map (fun i => xs.getD i d)

/-- The batch-reordering core of `prepare_rnn_seq` (batch-first): the
possibly reordered batch, the `lens` handed to `pack_padded_sequence`,
and `rev_order` (`None` when the lengths were already sorted).  The
`hx`/`masks` bookkeeping and the packing call itself are framework glue
outside the model. -/
def prepare_rnn_seq {α : Type} (rnn_input : List α) (lengths : List ℕ) (d : α) :
    List α × List ℕ × Option (List ℕ) :=
  match check_decreasing lengths with
  | none => (rnn_input, lengths, none)
  | some (lens, order, rev_order) =>
      (index_select rnn_input d order, lens, some rev_order)

/-- Function `recover_rnn_seq`: `index_select` by `rev_order` when it is present,
identity otherwise. -/
def recover_rnn_seq {α : Type} (seq : List α) (rev_order : Option (List ℕ)) (d : α) :
    List α :=
  match rev_order with
  | none => seq
  | some r => index_select seq d r

lemma torchSortDesc_fst_of_sorted {lengths : List ℕ}
    (h : List.Sorted (fun a b => a ≥ b) lengths) :
    (torchSortDesc lengths).1 = lengths := by
  have h' : List.Pairwise (fun a b : ℕ => b ≤ a) (lengths.enum.map Prod.snd) := by
    rw [List.enum_map_snd]
    exact h
  have h2 := List.pairwise_map.mp h'
  have hs : List.Sorted descBy lengths.enum := h2
  rw [torchSortDesc]
  simp only [List.Sorted.insertionSort_eq hs, List.enum_map_snd]

/-- C5: when the lengths are already sorted in descending order,
`check_decreasing` returns `None` and `prepare_rnn_seq` keeps the batch
in its given order with `rev_order = None` (no `index_select`). -/
theorem prepare_rnn_seq_sorted_skips_reorder {α : Type} (rnn_input : List α)
    (lengths : List ℕ) (d : α) (h : List.Sorted (fun a b => a ≥ b) lengths) :
    check_decreasing lengths = none ∧
    prepare_rnn_seq rnn_input lengths d = (rnn_input, lengths, none) := by
  have hc : check_decreasing lengths = none := by
    simp [check_decreasing, torchSortDesc_fst_of_sorted h]
  exact ⟨hc, by rw [prepare_rnn_seq, hc]⟩

/-- C5 witness: a concrete already-descending batch is left untouched. -/
theorem prepare_rnn_seq_sorted_skips_reorder_witness :
    check_decreasing [3, 2, 2, 1] = none ∧
    prepare_rnn_seq ["a", "b", "c", "d"] [3, 2, 2, 1] "" =
      (["a", "b", "c", "d"], [3, 2, 2, 1], none) :=
  prepare_rnn_seq_sorted_skips_reorder ["a", "b", "c", "d"] [3, 2, 2, 1] ""
    (by decide)

lemma index_select_length {α : Type} (xs : List α) (d : α) (idx : List ℕ) :
    (index_select xs d idx).length = idx.length := by
  simp [index_select]

lemma argsort_asc_inverse {o : List ℕ} {n : ℕ} (ho : o.Perm (List.range n)) :
    ((torchSortAsc o).2).length = n ∧
    ∀ i, i < n → ((torchSortAsc o).2).getD i 0 < o.length ∧
      o.getD (((torchSortAsc o).2).getD i 0) 0 = i := by
  have hlen_o : o.length = n := by rw [ho.length_eq, List.length_range]
  have hsperm := List.perm_insertionSort ascBy o.enum
  have hslen : (List.insertionSort ascBy o.enum).length = n := by
    rw [hsperm.length_eq, List.enum_length, hlen_o]
  have hperm2 : ((List.insertionSort ascBy o.enum).map Prod.snd).Perm (List.range n) := by
    refine (hsperm.map Prod.snd).trans ?_
    rw [List.enum_map_snd]
    exact ho
  have hsorted1 : List.Pairwise (fun a b : ℕ => a ≤ b)
      ((List.insertionSort ascBy o.enum).map Prod.snd) :=
    List.Pairwise.map Prod.snd (fun _ _ hab => hab)
      (List.sorted_insertionSort ascBy o.enum)
  have hsnd : (List.insertionSort ascBy o.enum).map Prod.snd = List.range n :=
    List.eq_of_perm_of_sorted hperm2 hsorted1
      ((List.pairwise_lt_range n).imp le_of_lt)
  have hrev : (torchSortAsc o).2 = (List.insertionSort ascBy o.enum).map Prod.fst := rfl
  have hrevlen : ((torchSortAsc o).2).length = n := by
    rw [hrev, List.length_map, hslen]
  refine ⟨hrevlen, fun i hi => ?_⟩
  have hi' : i < (List.insertionSort ascBy o.enum).length := by
    rw [hslen]
    exact hi
  have hget : ((torchSortAsc o).2).getD i 0 = ((List.insertionSort ascBy o.enum).get ⟨i, hi'⟩).1 := by
    rw [hrev, List.getD_eq_getElem _ _ (by simpa using hi'), List.getElem_map]
    rfl
  have hmem : (List.insertionSort ascBy o.enum).get ⟨i, hi'⟩ ∈ o.enum :=
    hsperm.subset (List.getElem_mem hi')
  have hoget : o[((List.insertionSort ascBy o.enum).get ⟨i, hi'⟩).1]? =
      some ((List.insertionSort ascBy o.enum).get ⟨i, hi'⟩).2 := by
    apply List.mk_mem_enum_iff_getElem?.mp
    simpa using hmem
  have hsndi : ((List.insertionSort ascBy o.enum).get ⟨i, hi'⟩).2 = i := by
    have h1 : ((List.insertionSort ascBy o.enum).map Prod.snd)[i]? =
        some ((List.insertionSort ascBy o.enum).get ⟨i, hi'⟩).2 := by
      rw [List.getElem?_eq_getElem (by simpa using hi'), List.getElem_map]
      rfl
    rw [hsnd, List.getElem?_eq_getElem (by simpa using hi), List.getElem_range] at h1
    exact (Option.some.injEq _ _ ▸ h1).symm
  have hjlt : ((List.insertionSort ascBy o.enum).get ⟨i, hi'⟩).1 < o.length := by
    rcases List.getElem?_eq_some_iff.mp hoget with ⟨hlt, _⟩
    exact hlt
  refine ⟨by rw [hget]; exact hjlt, ?_⟩
  rw [hget, List.getD_eq_getElem?_getD, hoget, Option.getD_some, hsndi]

lemma index_select_getElem {α : Type} (xs : List α) (d : α) (idx : List ℕ) (i : ℕ)
    (h : i < (index_select xs d idx).length) :
    (index_select xs d idx)[i] = xs.getD (idx.getD i 0) d := by
  have hidx : i < idx.length := by
    rw [index_select_length] at h
    exact h
  simp only [index_select, List.getElem_map]
  rw [List.getD_eq_getElem _ _ hidx]

lemma index_select_inverse {α : Type} (x : List α) (d : α) {o : List ℕ}
    (ho : o.Perm (List.range x.length)) :
    index_select (index_select x d o) d (torchSortAsc o).2 = x := by
  obtain ⟨hrl, hinv⟩ := argsort_asc_inverse ho
  apply List.ext_getElem
  · rw [index_select_length, hrl]
  · intro i h1 h2
    have hi : i < x.length := h2
    obtain ⟨hjlt, hj⟩ := hinv i hi
    rw [index_select_getElem _ _ _ _ h1,
      List.getD_eq_getElem _ _ (by rw [index_select_length]; exact hjlt),
      index_select_getElem _ _ _ _ (by rw [index_select_length]; exact hjlt),
      hj, List.getD_eq_getElem _ _ hi]

/-- C6: `prepare_rnn_seq` reorders the batch by the descending-length
permutation `order` and returns its inverse `rev_order`;
`recover_rnn_seq`'s `index_select` by `rev_order` restores the original
batch order, so selecting by `order` and then by `rev_order` is the
identity on the batch dimension. -/
theorem prepare_recover_roundtrip {α : Type} (rnn_input : List α) (lengths : List ℕ)
    (d : α) (h : rnn_input.length = lengths.length) :
    recover_rnn_seq (prepare_rnn_seq rnn_input lengths d).1
      (prepare_rnn_seq rnn_input lengths d).2.2 d = rnn_input := by
  have hop : ((torchSortDesc lengths).2).Perm (List.range rnn_input.length) := by
    refine ((List.perm_insertionSort descBy lengths.enum).map Prod.fst).trans ?_
    rw [List.enum_map_fst, h]
  rw [prepare_rnn_seq]
  cases hc : check_decreasing lengths with
  | none => rfl
  | some t =>
    have hrev : t.2.2 = (torchSortAsc (torchSortDesc lengths).2).2 ∧
        t.2.1 = (torchSortDesc lengths).2 := by
      rw [check_decreasing] at hc
      split at hc
      · cases hc
      · cases hc
        exact ⟨rfl, rfl⟩
    obtain ⟨lens, order, rev⟩ := t
    simp only at hrev
    rw [recover_rnn_seq, hrev.1, hrev.2]
    exact index_select_inverse rnn_input d hop

/-- C6 witness: a concrete unsorted batch is reordered and then exactly
restored. -/
theorem prepare_recover_roundtrip_witness :
    ["a", "b", "c"].length = [1, 3, 2].length ∧
    recover_rnn_seq (prepare_rnn_seq ["a", "b", "c"] [1, 3, 2] "").1
      (prepare_rnn_seq ["a", "b", "c"] [1, 3, 2] "").2.2 "" = ["a", "b", "c"] :=
  ⟨by decide, prepare_recover_roundtrip ["a", "b", "c"] [1, 3, 2] "" (by decide)⟩

/-! ### Python string primitives

Text is modelled as `List Char`.  These model the Python built-ins used
by `eval_utils.py`: `str.strip`, `str.split("\n")`, `str.split()`, list
indexing, and `float()`. -/

/-- Python whitespace as used by `str.strip()` / `str.split()`: space,
tab, newline, carriage return, vertical tab, form feed. -/
def isSpc (c : Char) : Bool :=
  c = ' ' || c = '\t' || c = '\n' || c = '\r' || c = '\x0b' || c = '\x0c'

/-- Model of `s.strip()`: drop leading and trailing whitespace. -/
def pyStrip (l : List Char) : List Char :=
  ((l.dropWhile isSpc).reverse.dropWhile isSpc).reverse

/-- Model of `s.split("\n")`: split at every newline, keeping empty pieces. -/
def splitNL : List Char → List (List Char)
  | [] => [[]]
  | c :: cs =>
    if c = '\n' then [] :: splitNL cs
    else
      match splitNL cs with
      | [] => [[c]]
      | p :: ps => (c :: p) :: ps

/-- Helper for `s.split()`: `acc` holds the current word, reversed. -/
def pySplitAux : List Char → List Char → List (List Char)
  | [], acc => if acc.isEmpty then [] else [acc.reverse]
  | c :: cs, acc =>
    if isSpc c then
      if acc.isEmpty then pySplitAux cs []
      else acc.reverse :: pySplitAux cs []
    else pySplitAux cs (c :: acc)

/-- Model of `s.split()`: split on whitespace runs, discarding empty pieces. -/
def pySplit (l : List Char) : List (List Char) := pySplitAux l []

/-- The two Python exception shapes relevant to `compute_srl_f1`'s
official-score parsing. -/
inductive PyExc where
  | indexError
  | valueError
deriving DecidableEq, Repr

/-- Python list indexing `l[i]`: raises `IndexError` out of range. -/
def listGet {α : Type} (l : List α) (i : ℕ) : Except PyExc α :=
  match l[i]? with
  | some a => .ok a
  | none => .error .indexError

/-- Decimal digit accumulation for `pyFloat`. -/
def parseNatAux : List Char → Option ℕ → Option ℕ
  | [], acc => acc
  | c :: cs, acc =>
    if '0' ≤ c ∧ c ≤ '9'
    then parseNatAux cs (some ((acc.getD 0) * 10 + (c.toNat - '0'.toNat)))
    else none

/-- A nonempty all-digit run, as a natural number. -/
def parseDigits (l : List Char) : Option ℕ := parseNatAux l none

/-- Modelled from the spec: Python `float()` on a scorer field, for the
decimal literals the Perl scorer emits — an optional sign, an integer
digit run, and an optional fractional digit run; anything else raises
`ValueError`. -/
def pyFloat (l : List Char) : Except PyExc ℚ :=
  let core : List Char → Option ℚ := fun cs =>
    let ip := cs.takeWhile (fun c => c ≠ '.')
    match cs.dropWhile (fun c => c ≠ '.') with
    | [] => (parseDigits ip).map (fun n => (n : ℚ))
    | _ :: frac =>
      if frac.any (fun c => c = '.') then none
      else
        match parseDigits ip, parseDigits frac with
        | some n, some f => some ((n : ℚ) + (f : ℚ) / (10 : ℚ) ^ frac.length)
        | _, _ => none
  match l with
  | '-' :: cs => match core cs with
    | some q => .ok (-q)
    | none => .error .valueError
  | cs => match core cs with
    | some q => .ok q
    | none => .error .valueError

/-- Expression `eval_info.strip().split("\n")[6].strip().split()[5]` from
`compute_srl_f1` (lines 188-191): the score field of the captured
scorer output; each indexing can raise `IndexError`. -/
def scoreField (eval_info : List Char) : Except PyExc (List Char) := do
  let line6 ← listGet (splitNL (pyStrip eval_info)) 6
  let field5 ← listGet (pySplit (pyStrip line6)) 5
  pure field5

/-- The `try` body of `compute_srl_f1` (lines 187-196): parse recall
from `eval_info`, precision from `eval_info2`, and combine into F1 with
a zero-denominator guard. -/
def parse_conll_scores (eval_info eval_info2 : List Char) :
    Except PyExc (ℚ × ℚ × ℚ) := do
  let conll_recall ← pyFloat (← scoreField eval_info)
  let conll_precision ← pyFloat (← scoreField eval_info2)
  let conll_f1 : ℚ :=
    if conll_recall + conll_precision > 0
    then 2 * conll_recall * conll_precision / (conll_recall + conll_precision)
    else 0
  pure (conll_precision, conll_recall, conll_f1)

/-- The `try/except IndexError` wrapper (lines 187-205): an
`IndexError` degrades precision, recall and F1 to `(0, 0, 0)` (next to
a diagnostic print, which is a side effect outside this model); any
other exception propagates. -/
def official_scores (eval_info eval_info2 : List Char) :
    Except PyExc (ℚ × ℚ × ℚ) :=
  match parse_conll_scores eval_info eval_info2 with
  | .ok r => .ok r
  | .error .indexError => .ok (0, 0, 0)
  | .error e => .error e

/-- C7: an `IndexError` during the official-score parse — and only that
failure shape — is caught and turned into zero scores; a `ValueError`
(e.g. a non-numeric field) propagates uncaught. -/
theorem conll_parse_error_handling (e1 e2 : List Char) :
    (parse_conll_scores e1 e2 = .error .indexError →
      official_scores e1 e2 = .ok (0, 0, 0)) ∧
    (parse_conll_scores e1 e2 = .error .valueError →
      official_scores e1 e2 = .error .valueError) := by
  constructor
  · intro h
    rw [official_scores, h]
  · intro h
    rw [official_scores, h]

/-- C7 witness: concretely, empty scorer output has no line 6 and
degrades to zero scores, while seven lines whose sixth line carries the
non-numeric field `"xx"` in position 5 make the parse propagate a
`ValueError`. -/
theorem conll_parse_error_handling_witness :
    (parse_conll_scores [] [] = .error .indexError ∧
      official_scores [] [] = .ok (0, 0, 0)) ∧
    (parse_conll_scores ("a\nb\nc\nd\ne\nf\np q r s t 50".toList)
        ("a\nb\nc\nd\ne\nf\np q r s t xx".toList) = .error .valueError ∧
      official_scores ("a\nb\nc\nd\ne\nf\np q r s t 50".toList)
        ("a\nb\nc\nd\ne\nf\np q r s t xx".toList) = .error .valueError) :=
  ⟨⟨by rfl, (conll_parse_error_handling [] []).1 (by rfl)⟩,
   ⟨by rfl, (conll_parse_error_handling _ _).2 (by rfl)⟩⟩

/-! ### CoNLL fixed-width writing and reading
(`print_sentence_to_conll` / `read_gold_predicates`) -/

/-- Model of `s.ljust(15)`: pad on the right with spaces. -/
def ljust (s : List Char) (w : ℕ) : List Char :=
  s ++ List.replicate (w - s.length) ' '

/-- Model of `s.rjust(15)`: pad on the left with spaces. -/
def rjust (s : List Char) (w : ℕ) : List Char :=
  List.replicate (w - s.length) ' ' ++ s

/-- One row of `print_sentence_to_conll` before its terminating newline:
`tokens[i].ljust(15)` followed by each `label_column[i].rjust(15)`. -/
def conllRowBody (tok : List Char) (labelRow : List (List Char)) : List Char :=
  ljust tok 15 ++ (labelRow.map (fun lab => rjust lab 15)).flatten

/-- The row bodies of `print_sentence_to_conll`, one per
`i in range(len(tokens))` (the label columns are asserted to have the
same length as `tokens`; out-of-range reads default to `[]`). -/
def conllRows (tokens : List (List Char)) (labels : List (List (List Char))) :
    List (List Char) :=
  (List.range tokens.length).map (fun i =>
    conllRowBody (tokens.getD i []) (labels.map (fun col => col.getD i [])))

/-- Function `print_sentence_to_conll(f, tokens, labels)`: the text written to
`f` — each row followed by `"\n"`, then a final blank separator line. -/
def print_sentence_to_conll (tokens : List (List Char))
    (labels : List (List (List Char))) : List Char :=
  ((conllRows tokens labels).map (fun b => b ++ ['\n'])).flatten ++ ['\n']

/-- Iteration `for line in f` over a file's text: newline-separated segments, with
no extra empty line after a final newline. -/
def fileLines (content : List Char) : List (List Char) :=
  let ps := splitNL content
  if ps.getLast? = some [] then ps.dropLast else ps

/-- Statement `groups[-1].append(x)`. -/
def appendLast {α : Type} : List (List α) → α → List (List α)
  | [], _ => []
  | [g], x => [g ++ [x]]
  | g :: g2 :: gs, x => g :: appendLast (g2 :: gs) x

/-- The loop body of `read_gold_predicates`: a blank (after `strip`)
line opens a new sentence group; any other line appends its first
whitespace-separated field (`line.split()[0]`) to the current group.
(The `[]` arm is unreachable: a stripped nonempty line has a first
field; Python would raise there.) -/
def readStep (groups : List (List (List Char))) (line : List Char) :
    List (List (List Char)) :=
  let line' := pyStrip line
  if line'.isEmpty then groups ++ [[]]
  else
    match pySplit line' with
    | [] => groups
    | w :: _ => appendLast groups w

/-- Function `read_gold_predicates(gold_path)` on the file's text: fold the lines
starting from one empty group. -/
def read_gold_predicates (content : List Char) : List (List (List Char)) :=
  (fileLines content).foldl readStep [[]]

lemma splitNL_append_row {body : List Char} (h : '\n' ∉ body) (rest : List Char) :
    splitNL (body ++ '\n' :: rest) = body :: splitNL rest := by
  induction body with
  | nil => simp [splitNL]
  | cons c b ih =>
    have hc : c ≠ '\n' := fun hx => h (hx ▸ List.mem_cons_self c b)
    have ih' := ih (fun hx => h (List.mem_cons_of_mem c hx))
    rw [List.cons_append, splitNL, if_neg hc, ih']

lemma splitNL_rows {bodies : List (List Char)} (h : ∀ b ∈ bodies, '\n' ∉ b) :
    splitNL ((bodies.map (fun b => b ++ ['\n'])).flatten ++ ['\n']) =
      bodies ++ [[], []] := by
  induction bodies with
  | nil => simp [splitNL]
  | cons b bs ih =>
    rw [List.map_cons, List.flatten, List.append_assoc,
      show b ++ ['\n'] ++ ((bs.map (fun x => x ++ ['\n'])).flatten ++ ['\n']) =
        b ++ '\n' :: ((bs.map (fun x => x ++ ['\n'])).flatten ++ ['\n']) by simp,
      splitNL_append_row (h b (List.mem_cons_self b bs)),
      ih (fun x hx => h x (List.mem_cons_of_mem b hx))]
    rfl

lemma fileLines_of_rows {bodies : List (List Char)} (h : ∀ b ∈ bodies, '\n' ∉ b) :
    fileLines ((bodies.map (fun b => b ++ ['\n'])).flatten ++ ['\n']) =
      bodies ++ [[]] := by
  rw [fileLines, splitNL_rows h]
  have h1 : bodies ++ [[], []] = (bodies ++ [[]]) ++ ([[]] : List (List Char)) := by
    simp
  rw [h1, List.getLast?_concat, List.dropLast_concat]
  simp

lemma dropWhile_all_false {p : Char → Bool} {l : List Char}
    (h : ∀ x ∈ l, p x = false) : l.dropWhile p = l := by
  cases l with
  | nil => rfl
  | cons c cs => simp [List.dropWhile_cons, h c (List.mem_cons_self c cs)]

lemma pyStrip_token {t r : List Char} (ht : t ≠ [])
    (htns : ∀ c ∈ t, isSpc c = false) :
    pyStrip (t ++ r) = t ++ (r.reverse.dropWhile isSpc).reverse := by
  obtain ⟨c, t', rfl⟩ : ∃ c t', t = c :: t' := by
    cases t with
    | nil => exact absurd rfl ht
    | cons c t' => exact ⟨c, t', rfl⟩
  rw [pyStrip, List.cons_append, List.dropWhile_cons,
    if_neg (by rw [htns c (List.mem_cons_self c t')]; simp)]
  rw [show (c :: (t' ++ r)).reverse = r.reverse ++ (t'.reverse ++ [c]) by
    rw [List.reverse_cons, List.reverse_append, List.append_assoc]]
  rw [List.dropWhile_append]
  have hall : ∀ x ∈ t'.reverse ++ [c], isSpc x = false := by
    intro x hx
    rcases List.mem_append.mp hx with hx | hx
    · exact htns x (List.mem_cons_of_mem c (List.mem_reverse.mp hx))
    · rw [List.mem_singleton.mp hx]
      exact htns c (List.mem_cons_self c t')
  by_cases he : (r.reverse.dropWhile isSpc).isEmpty
  · rw [if_pos he]
    have hre : r.reverse.dropWhile isSpc = [] := by
      rwa [List.isEmpty_iff] at he
    rw [dropWhile_all_false hall, hre]
    simp [List.reverse_append]
  · rw [if_neg he]
    simp [List.reverse_append]

lemma stripTrail_space {r0 : List Char} :
    ((' ' :: r0).reverse.dropWhile isSpc).reverse = [] ∨
    ∃ ys, ((' ' :: r0).reverse.dropWhile isSpc).reverse = ' ' :: ys := by
  have hsuf : (' ' :: r0).reverse.dropWhile isSpc <:+ (' ' :: r0).reverse :=
    List.dropWhile_suffix isSpc
  obtain ⟨u, hu⟩ := hsuf
  have hr : ' ' :: r0 = ((' ' :: r0).reverse.dropWhile isSpc).reverse ++ u.reverse := by
    rw [← List.reverse_append, hu, List.reverse_reverse]
  cases hd : ((' ' :: r0).reverse.dropWhile isSpc).reverse with
  | nil => exact Or.inl rfl
  | cons z zs =>
    right
    rw [hd, List.cons_append] at hr
    injection hr with h1 h2
    exact ⟨zs, by rw [h1]⟩

lemma pySplitAux_nonspace_run {t : List Char} (htns : ∀ c ∈ t, isSpc c = false) :
    ∀ (rest acc : List Char),
      pySplitAux (t ++ rest) acc = pySplitAux rest (t.reverse ++ acc) := by
  induction t with
  | nil => intro rest acc; simp
  | cons c t ih =>
    intro rest acc
    have hc : isSpc c = false := htns c (List.mem_cons_self c t)
    rw [List.cons_append, pySplitAux, hc]
    simp only [Bool.false_eq_true, if_false]
    rw [ih (fun x hx => htns x (List.mem_cons_of_mem c hx)) rest (c :: acc)]
    congr 1
    rw [List.reverse_cons, List.append_assoc]
    rfl

lemma pySplit_token {t r : List Char} (ht : t ≠ [])
    (htns : ∀ c ∈ t, isSpc c = false)
    (hr : r = [] ∨ ∃ ys, r = ' ' :: ys) :
    ∃ rest, pySplit (t ++ r) = t :: rest := by
  have hne : t.reverse.isEmpty = false := by
    cases t with
    | nil => exact absurd rfl ht
    | cons c t' => simp
  rcases hr with rfl | ⟨ys, rfl⟩
  · refine ⟨[], ?_⟩
    rw [pySplit, List.append_nil, show t = t ++ [] by simp,
      pySplitAux_nonspace_run htns [] []]
    rw [pySplitAux]
    simp [hne]
  · refine ⟨pySplitAux ys [], ?_⟩
    rw [pySplit, pySplitAux_nonspace_run htns (' ' :: ys) []]
    rw [pySplitAux]
    simp [isSpc, hne]

lemma conllRowBody_parse {t : List Char} (lr : List (List Char))
    (ht1 : t ≠ []) (ht2 : t.length < 15) (ht3 : ∀ c ∈ t, isSpc c = false) :
    (pyStrip (conllRowBody t lr)).isEmpty = false ∧
    ∃ rest, pySplit (pyStrip (conllRowBody t lr)) = t :: rest := by
  obtain ⟨m, hm⟩ : ∃ m, 15 - t.length = m + 1 := ⟨14 - t.length, by omega⟩
  have hbody : conllRowBody t lr =
      t ++ (' ' :: (List.replicate m ' ' ++
        ((lr.map (fun lab => rjust lab 15)).flatten))) := by
    rw [conllRowBody, ljust, hm, List.replicate_succ, List.append_assoc]
    rfl
  rw [hbody, pyStrip_token ht1 ht3]
  constructor
  · cases t with
    | nil => exact absurd rfl ht1
    | cons c t' => rfl
  · exact pySplit_token ht1 ht3 stripTrail_space

lemma getD_tail {α : Type} (col : List α) (i : ℕ) (d : α) :
    col.getD (i + 1) d = col.tail.getD i d := by
  cases col <;> simp [List.getD]

lemma conllRows_cons (t : List Char) (ts : List (List Char))
    (labels : List (List (List Char))) :
    conllRows (t :: ts) labels =
      conllRowBody t (labels.map (fun col => col.getD 0 [])) ::
        conllRows ts (labels.map List.tail) := by
  rw [conllRows, List.length_cons, List.range_succ_eq_map, List.map_cons, List.map_map]
  congr 1
  rw [conllRows]
  apply List.map_congr_left
  intro i hi
  simp only [Function.comp]
  congr 1
  rw [List.map_map]
  apply List.map_congr_left
  intro col _
  exact getD_tail col i []

lemma conllRows_no_newline {tokens : List (List Char)}
    {labels : List (List (List Char))}
    (htok : ∀ t ∈ tokens, ∀ c ∈ t, isSpc c = false)
    (hlab : ∀ col ∈ labels, ∀ lab ∈ col, '\n' ∉ lab) :
    ∀ b ∈ conllRows tokens labels, '\n' ∉ b := by
  intro b hb hnb
  rw [conllRows] at hb
  obtain ⟨i, hi, rfl⟩ := List.mem_map.mp hb
  have hilt : i < tokens.length := List.mem_range.mp hi
  rw [conllRowBody] at hnb
  rcases List.mem_append.mp hnb with h | h
  · rw [ljust] at h
    rcases List.mem_append.mp h with h | h
    · have hmem : tokens.getD i [] ∈ tokens := by
        rw [List.getD_eq_getElem _ _ hilt]
        exact List.getElem_mem hilt
      have hc := htok _ hmem '\n' h
      simp [isSpc] at hc
    · exact absurd (List.eq_of_mem_replicate h) (by decide)
  · obtain ⟨x, hx1, hx2⟩ := List.mem_flatten.mp h
    obtain ⟨lab0, hl1, rfl⟩ := List.mem_map.mp hx1
    obtain ⟨col, hc1, rfl⟩ := List.mem_map.mp hl1
    rw [rjust] at hx2
    rcases List.mem_append.mp hx2 with h2 | h2
    · exact absurd (List.eq_of_mem_replicate h2) (by decide)
    · by_cases hlen : i < col.length
      · have hmem : col.getD i [] ∈ col := by
          rw [List.getD_eq_getElem _ _ hlen]
          exact List.getElem_mem hlen
        exact hlab col hc1 _ hmem h2
      · rw [List.getD_eq_default _ _ (Nat.le_of_not_lt hlen)] at h2
        cases h2

lemma appendLast_concat {α : Type} (G : List (List α)) (g : List α) (x : α) :
    appendLast (G ++ [g]) x = G ++ [g ++ [x]] := by
  induction G with
  | nil => rfl
  | cons h t ih =>
    cases t with
    | nil => rfl
    | cons h2 t2 =>
      rw [List.cons_append, List.cons_append, appendLast]
      rw [← List.cons_append, ih]
      rfl

lemma readStep_row {b t : List Char}
    (h1 : (pyStrip b).isEmpty = false)
    (h2 : ∃ rest, pySplit (pyStrip b) = t :: rest)
    (G : List (List (List Char))) (g : List (List Char)) :
    readStep (G ++ [g]) b = G ++ [g ++ [t]] := by
  obtain ⟨rest, hr⟩ := h2
  simp only [readStep, h1, Bool.false_eq_true, if_false, hr]
  exact appendLast_concat G g t

lemma fold_conllRows (tokens : List (List Char)) :
    ∀ (labels : List (List (List Char))),
      (∀ t ∈ tokens, t ≠ [] ∧ t.length < 15 ∧ ∀ c ∈ t, isSpc c = false) →
      ∀ (G : List (List (List Char))) (g : List (List Char)),
        (conllRows tokens labels).foldl readStep (G ++ [g]) = G ++ [g ++ tokens] := by
  induction tokens with
  | nil =>
    intro labels _ G g
    simp [conllRows]
  | cons t ts ih =>
    intro labels htok G g
    rw [conllRows_cons, List.foldl_cons]
    obtain ⟨ht1, ht2, ht3⟩ := htok t (List.mem_cons_self t ts)
    obtain ⟨hp1, hp2⟩ :=
      conllRowBody_parse (labels.map (fun col => col.getD 0 [])) ht1 ht2 ht3
    rw [readStep_row hp1 hp2 G g,
      ih (labels.map List.tail) (fun x hx => htok x (List.mem_cons_of_mem t hx))
        G (g ++ [t])]
    simp

/-- C4 (amended): writing a sentence with `print_sentence_to_conll` and
parsing the output with `read_gold_predicates` recovers exactly the
token sequence (followed by the empty sentence group opened by the
blank separator line) — provided each label column is as long as the
token list, each token is nonempty, free of whitespace and shorter than
the 15-character column width, and no label contains a newline. -/
theorem conll_roundtrip (tokens : List (List Char)) (labels : List (List (List Char)))
    (hcols : ∀ col ∈ labels, col.length = tokens.length)
    (htok : ∀ t ∈ tokens, t ≠ [] ∧ t.length < 15 ∧ ∀ c ∈ t, isSpc c = false)
    (hlab : ∀ col ∈ labels, ∀ lab ∈ col, '\n' ∉ lab) :
    read_gold_predicates (print_sentence_to_conll tokens labels) = [tokens, []] := by
  rw [read_gold_predicates, print_sentence_to_conll,
    fileLines_of_rows (conllRows_no_newline (fun x hx => (htok x hx).2.2) hlab),
    List.foldl_append]
  have h0 : (conllRows tokens labels).foldl readStep [[]] = [tokens] := by
    have h1 := fold_conllRows tokens labels htok [] []
    simpa using h1
  rw [h0]
  rfl

/-- C4 counterexample: the claim fails as stated.  A token containing a
space (`"a b"`) is printed positionally, and the parse recovers only
its first whitespace-separated field `"a"`, not the token. -/
theorem conll_roundtrip_cex :
    read_gold_predicates (print_sentence_to_conll [['a', ' ', 'b']] []) ≠
      [[['a', ' ', 'b']], []] ∧
    read_gold_predicates (print_sentence_to_conll [['a', ' ', 'b']] []) =
      [[['a']], []] := by
  constructor
  · decide
  · decide

/-- C4 witness: a concrete two-token sentence with one label column
round-trips exactly. -/
theorem conll_roundtrip_witness :
    read_gold_predicates (print_sentence_to_conll
        [['T', 'h', 'e'], ['c', 'a', 't']]
        [[['(', 'A', '0', '*'], ['*', ')']]]) =
      [[['T', 'h', 'e'], ['c', 'a', 't']], []] :=
  conll_roundtrip [['T', 'h', 'e'], ['c', 'a', 't']]
    [[['(', 'A', '0', '*'], ['*', ')']]] (by decide) (by decide) (by decide)

/-! ### `print_to_conll` span writing (lines 255-264) -/

/-- Test `not max(flags[start:end+1])`: the span's slice holds no
already-written position (Python's `max` on an empty slice raises;
spans are assumed well-formed, `start ≤ end < len(words)`). -/
def spanFree (flags : List Bool) (s e : ℕ) : Bool :=
  !((flags.drop s).take (e + 1 - s)).any id

/-- Loop `for j in range(start, end + 1): flags[j] = True`. -/
def markSpan (flags : List Bool) (s e : ℕ) : List Bool :=
  flags.mapIdx (fun j b => if s ≤ j ∧ j ≤ e then true else b)

/-- Update `l[i] = f(l[i])`. -/
def listModify {α : Type} (l : List α) (i : ℕ) (f : α → α) : List α :=
  l.mapIdx (fun j x => if j = i then f x else x)

/-- One iteration of the span loop of `print_to_conll`: skip a span
whose slice already holds a written position, otherwise prepend
`"(" + label` at its start cell, append `")"` at its end cell, and mark
its positions. -/
def writeStep (st : List Bool × List (List Char)) (a : Span) :
    List Bool × List (List Char) :=
  if spanFree st.1 a.start a.fin then
    (markSpan st.1 a.start a.fin,
     listModify (listModify st.2 a.start (fun x => '(' :: (a.label.toList ++ x)))
       a.fin (fun x => x ++ [')']))
  else st

/-- The same step with the overlap check dropped: every span is
written. -/
def writeStepAll (st : List Bool × List (List Char)) (a : Span) :
    List Bool × List (List Char) :=
  (markSpan st.1 a.start a.fin,
   listModify (listModify st.2 a.start (fun x => '(' :: (a.label.toList ++ x)))
     a.fin (fun x => x ++ [')']))

/-- The per-predicate column construction of `print_to_conll`: start
from all-`"*"` cells and unset flags, fold the predicate's spans, and
write `"(V*)"` at the predicate position if no written span covers it. -/
def writeCol (n : ℕ) (pred_id : ℕ) (args : List Span) : List (List Char) :=
  let st := args.foldl writeStep (List.replicate n false, List.replicate n ['*'])
  if st.1.getD pred_id false then st.2
  else listModify st.2 pred_id (fun _ => "(V*)".toList)

/-- Variant of `writeCol` with the overlap check dropped. -/
def writeColAll (n : ℕ) (pred_id : ℕ) (args : List Span) : List (List Char) :=
  let st := args.foldl writeStepAll (List.replicate n false, List.replicate n ['*'])
  if st.1.getD pred_id false then st.2
  else listModify st.2 pred_id (fun _ => "(V*)".toList)

/-- Two spans share a token position. -/
def spanOverlap (a b : Span) : Bool :=
  max a.start b.start ≤ min a.fin b.fin

/-- The spans `print_to_conll` keeps: a greedy scan in list order
dropping every span that overlaps an earlier kept one. -/
def keptSpans (kept : List Span) : List Span → List Span
  | [] => []
  | a :: rest =>
    if kept.any (fun b => spanOverlap a b) then keptSpans kept rest
    else a :: keptSpans (kept ++ [a]) rest

lemma listModify_length {α : Type} (l : List α) (i : ℕ) (f : α → α) :
    (listModify l i f).length = l.length := by
  simp [listModify]

lemma listModify_getD {α : Type} (l : List α) (i j : ℕ) (f : α → α) (d : α)
    (hj : j < l.length) :
    (listModify l i f).getD j d =
      if j = i then f (l.getD j d) else l.getD j d := by
  rw [List.getD_eq_getElem _ _ (by simpa [listModify] using hj),
    List.getD_eq_getElem _ _ hj]
  simp [listModify]

lemma markSpan_length (flags : List Bool) (s e : ℕ) :
    (markSpan flags s e).length = flags.length := by
  simp [markSpan]

lemma markSpan_getD (flags : List Bool) (s e j : ℕ) (hj : j < flags.length) :
    (markSpan flags s e).getD j false =
      if s ≤ j ∧ j ≤ e then true else flags.getD j false := by
  rw [List.getD_eq_getElem _ _ (by simpa [markSpan] using hj),
    List.getD_eq_getElem _ _ hj]
  simp [markSpan]

lemma slice_any_iff (flags : List Bool) (s e : ℕ) :
    ((flags.drop s).take (e + 1 - s)).any id = true ↔
      ∃ j, s ≤ j ∧ j ≤ e ∧ j < flags.length ∧ flags.getD j false = true := by
  rw [List.any_eq_true]
  constructor
  · rintro ⟨x, hx, hxt⟩
    obtain ⟨i, hi, hix⟩ := List.mem_iff_getElem.mp hx
    have hi' : i < e + 1 - s ∧ i < flags.length - s := by
      rw [List.length_take, List.length_drop] at hi
      omega
    refine ⟨s + i, Nat.le_add_right s i, by omega, by omega, ?_⟩
    rw [List.getElem_take, List.getElem_drop] at hix
    rw [List.getD_eq_getElem _ _ (by omega), hix]
    simpa using hxt
  · rintro ⟨j, h1, h2, h3, h4⟩
    have hi : j - s < ((flags.drop s).take (e + 1 - s)).length := by
      rw [List.length_take, List.length_drop]
      omega
    refine ⟨_, List.getElem_mem hi, ?_⟩
    rw [List.getD_eq_getElem _ _ h3] at h4
    rw [List.getElem_take, List.getElem_drop]
    simp only [id_eq]
    convert h4 using 2
    omega

lemma spanFree_iff (flags : List Bool) (s e : ℕ) :
    spanFree flags s e = true ↔
      ¬ ∃ j, s ≤ j ∧ j ≤ e ∧ j < flags.length ∧ flags.getD j false = true := by
  rw [spanFree, Bool.not_eq_true', ← slice_any_iff flags s e]
  exact ⟨fun h => by simp [h], fun h => by simpa using h⟩

lemma spanFree_overlap {flags : List Bool} {kept : List Span} {n : ℕ} {a : Span}
    (hlen : flags.length = n)
    (hinv : ∀ j, j < n → (flags.getD j false = true ↔
      ∃ b ∈ kept, b.start ≤ j ∧ j ≤ b.fin))
    (ha : a.start ≤ a.fin ∧ a.fin < n)
    (hk : ∀ b ∈ kept, b.start ≤ b.fin ∧ b.fin < n) :
    spanFree flags a.start a.fin = !kept.any (fun b => spanOverlap a b) := by
  by_cases hov : kept.any (fun b => spanOverlap a b) = true
  · rw [hov]
    obtain ⟨b, hb, hab⟩ := List.any_eq_true.mp hov
    have hab' : max a.start b.start ≤ min a.fin b.fin := by
      simpa [spanOverlap] using hab
    obtain ⟨hb1, hb2⟩ := hk b hb
    have hsf : ¬ spanFree flags a.start a.fin = true := by
      rw [spanFree_iff]
      intro hno
      refine hno ⟨max a.start b.start, le_max_left _ _, ?_, ?_, ?_⟩
      · exact le_trans hab' (min_le_left _ _)
      · omega
      · rw [(hinv _ (by omega)).mpr ⟨b, hb, le_max_right _ _,
          le_trans hab' (min_le_right _ _)⟩]
    simpa using hsf
  · rw [Bool.not_eq_true] at hov
    rw [hov]
    rw [show (!false) = true from rfl, spanFree_iff]
    rintro ⟨j, h1, h2, h3, h4⟩
    obtain ⟨b, hb, hb1, hb2⟩ := (hinv j (by omega)).mp h4
    have : kept.any (fun b => spanOverlap a b) = true :=
      List.any_eq_true.mpr ⟨b, hb, by
        simp only [spanOverlap, decide_eq_true_eq]
        omega⟩
    rw [hov] at this
    cases this

lemma writeFold_spec {n : ℕ} (args : List Span) :
    ∀ (flags : List Bool) (col : List (List Char)) (kept : List Span),
    flags.length = n →
    (∀ j, j < n → (flags.getD j false = true ↔
      ∃ b ∈ kept, b.start ≤ j ∧ j ≤ b.fin)) →
    (∀ a ∈ args, a.start ≤ a.fin ∧ a.fin < n) →
    (∀ b ∈ kept, b.start ≤ b.fin ∧ b.fin < n) →
    args.foldl writeStep (flags, col) =
      (keptSpans kept args).foldl writeStepAll (flags, col) ∧
    (args.foldl writeStep (flags, col)).1.length = n ∧
    (args.foldl writeStep (flags, col)).2.length = col.length ∧
    (∀ j, j < n → ((args.foldl writeStep (flags, col)).1.getD j false = true ↔
      ∃ b ∈ kept ++ keptSpans kept args, b.start ≤ j ∧ j ≤ b.fin)) := by
  induction args with
  | nil =>
    intro flags col kept hlen hinv _ _
    refine ⟨rfl, hlen, rfl, ?_⟩
    simpa [keptSpans] using hinv
  | cons a rest ih =>
    intro flags col kept hlen hinv hwf hk
    have ha := hwf a (List.mem_cons_self a rest)
    have hfree := spanFree_overlap hlen hinv ha hk
    by_cases hov : kept.any (fun b => spanOverlap a b) = true
    · have hsf : spanFree flags a.start a.fin = false := by
        rw [hfree, hov]
        rfl
      have hstep : writeStep (flags, col) a = (flags, col) := by
        rw [writeStep]
        simp [hsf]
      have hkept : keptSpans kept (a :: rest) = keptSpans kept rest := by
        rw [keptSpans, if_pos hov]
      rw [List.foldl_cons, hstep, hkept]
      exact ih flags col kept hlen hinv
        (fun x hx => hwf x (List.mem_cons_of_mem a hx)) hk
    · have hov' : kept.any (fun b => spanOverlap a b) = false := by
        rwa [Bool.not_eq_true] at hov
      have hsf : spanFree flags a.start a.fin = true := by
        rw [hfree, hov']
        rfl
      have hkept : keptSpans kept (a :: rest) = a :: keptSpans (kept ++ [a]) rest := by
        rw [keptSpans, if_neg (by simp [hov'])]
      have hlen' : (markSpan flags a.start a.fin).length = n := by
        rw [markSpan_length, hlen]
      have hinv' : ∀ j, j < n →
          ((markSpan flags a.start a.fin).getD j false = true ↔
            ∃ b ∈ kept ++ [a], b.start ≤ j ∧ j ≤ b.fin) := by
        intro j hj
        rw [markSpan_getD flags a.start a.fin j (by omega)]
        by_cases hcov : a.start ≤ j ∧ j ≤ a.fin
        · rw [if_pos hcov]
          simp only [true_iff]
          exact ⟨a, by simp, hcov⟩
        · rw [if_neg hcov, hinv j hj]
          constructor
          · rintro ⟨b, hb, hbj⟩
            exact ⟨b, List.mem_append_left _ hb, hbj⟩
          · rintro ⟨b, hb, hbj⟩
            rcases List.mem_append.mp hb with hb | hb
            · exact ⟨b, hb, hbj⟩
            · rw [List.mem_singleton.mp hb] at hbj
              exact absurd hbj hcov
      have hk' : ∀ b ∈ kept ++ [a], b.start ≤ b.fin ∧ b.fin < n := by
        intro b hb
        rcases List.mem_append.mp hb with hb | hb
        · exact hk b hb
        · rw [List.mem_singleton.mp hb]
          exact ha
      obtain ⟨e1, e2, e3, e4⟩ := ih (markSpan flags a.start a.fin)
        (listModify (listModify col a.start (fun x => '(' :: (a.label.toList ++ x)))
          a.fin (fun x => x ++ [')']))
        (kept ++ [a]) hlen' hinv'
        (fun x hx => hwf x (List.mem_cons_of_mem a hx)) hk'
      have hassoc : (kept ++ [a]) ++ keptSpans (kept ++ [a]) rest =
          kept ++ (a :: keptSpans (kept ++ [a]) rest) := by
        simp
      have hstep : writeStep (flags, col) a = writeStepAll (flags, col) a := by
        rw [writeStep, if_pos hsf]
        rfl
      rw [List.foldl_cons, hstep, hkept, List.foldl_cons]
      simp only [writeStepAll]
      refine ⟨e1, e2, ?_, ?_⟩
      · rw [e3, listModify_length, listModify_length]
      · intro j hj
        rw [e4 j hj, hassoc]

/-- C10: `print_to_conll`'s per-predicate column keeps exactly the
spans of a greedy left-to-right scan that drops every span overlapping
an earlier kept one — the produced column equals the column obtained by
writing just the kept spans unconditionally — and when no kept span
covers the predicate position, that cell is written as `"(V*)"`. -/
theorem print_to_conll_overlap_dropping (n pred_id : ℕ) (args : List Span)
    (hwf : ∀ a ∈ args, a.start ≤ a.fin ∧ a.fin < n) (hp : pred_id < n) :
    writeCol n pred_id args = writeColAll n pred_id (keptSpans [] args) ∧
    ((¬ ∃ b ∈ keptSpans [] args, b.start ≤ pred_id ∧ pred_id ≤ b.fin) →
      (writeCol n pred_id args).getD pred_id [] = "(V*)".toList) := by
  obtain ⟨heq, hflen, hclen, hinv⟩ := writeFold_spec args (List.replicate n false)
    (List.replicate n ['*']) []
    (by simp)
    (by
      intro j hj
      rw [List.getD_eq_getElem _ _ (by simpa using hj)]
      simp)
    hwf
    (by simp)
  constructor
  · rw [writeCol, writeColAll, heq]
  · intro hnc
    have hff : (args.foldl writeStep
        (List.replicate n false, List.replicate n ['*'])).1.getD pred_id false = false := by
      rw [Bool.eq_false_iff]
      intro h
      exact hnc (by simpa using (hinv pred_id hp).mp h)
    rw [writeCol]
    simp only [hff, Bool.false_eq_true, if_false]
    rw [listModify_getD _ _ _ _ _ (by rw [hclen, List.length_replicate]; exact hp)]
    simp

/-- C10 witness: with predicate position 2 and spans `(0,2)`, `(1,3)`
(overlapping, dropped), `(4,4)`, the produced column equals the
unconditional column of the kept spans `(0,2)` and `(4,4)`. -/
theorem print_to_conll_overlap_dropping_witness :
    (writeCol 5 2 [⟨0, 2, "A0"⟩, ⟨1, 3, "A1"⟩, ⟨4, 4, "AM"⟩] =
      writeColAll 5 2 (keptSpans [] [⟨0, 2, "A0"⟩, ⟨1, 3, "A1"⟩, ⟨4, 4, "AM"⟩]) ∧
     ((¬ ∃ b ∈ keptSpans [] [⟨0, 2, "A0"⟩, ⟨1, 3, "A1"⟩, ⟨4, 4, "AM"⟩],
        b.start ≤ 2 ∧ 2 ≤ b.fin) →
       (writeCol 5 2 [⟨0, 2, "A0"⟩, ⟨1, 3, "A1"⟩, ⟨4, 4, "AM"⟩]).getD 2 [] =
         "(V*)".toList)) ∧
    keptSpans [] [⟨0, 2, "A0"⟩, ⟨1, 3, "A1"⟩, ⟨4, 4, "AM"⟩] =
      [⟨0, 2, "A0"⟩, ⟨4, 4, "AM"⟩] :=
  ⟨print_to_conll_overlap_dropping 5 2 [⟨0, 2, "A0"⟩, ⟨1, 3, "A1"⟩, ⟨4, 4, "AM"⟩]
    (by decide) (by decide), by decide⟩

end Forte
